import Mathlib

/-!
Shallow embedding of the `learn-onnx` repository's core code.

The decode engine is `generate_text` in `llama3.2-1b/py/main.py`: an
autoregressive greedy decode loop with an incremental per-layer key-value
cache.  The ONNX session (`session.run`) is the external forward-step
collaborator: it receives `input_ids`, `attention_mask`, `position_ids` and
the per-layer past key/value tensors and returns logits together with the
updated per-layer caches.  The engine itself never inspects the cache
tensors (it only creates the initial empty ones and routes the returned
ones back in), so the cache-tensor type is a type parameter `α`; the
zero-length tensor `np.zeros((1, 8, 0, 64))` built by the source becomes
the parameter `zerosKV : α`.  Token ids are `Nat`, logits entries are
modelled as exact integers `Int` (only their ordering ever matters: the
engine applies `np.argmax`), and the string-keyed cache dict
`past_key_values["past_key_values.{i}.key" / ".value"]` for `i` in
`range(16)` becomes a 16-element list of key/value pairs indexed by layer.
Tokenization and the final `tokenizer.decode` call are the external
tokenizer collaborator, so the embedded engine works in token-id space:
its prompt input is the token-id list (with the all-ones attention mask
that `padding=False` tokenization produces) and its result is the
generated token-id list.

The embedding scripts' `mean_pooling` (`py/main.py` and
`jina-embedding-v2/py/main.py`, identical bodies) is embedded over exact
rationals: the float constant `1e-9` used by `np.clip` becomes
`1 / 10 ^ 9`.
-/

/-- The arguments of one `session.run` call made by the decode loop:
`input_ids`, `attention_mask`, `position_ids` and the per-layer
past key/value tensors (batch dimension of size 1 dropped). -/
structure ForwardInput (α : Type u) where
  input_ids : List Nat
  attention_mask : List Nat
  position_ids : List Nat
  past_key_values : List (α × α)
deriving Repr, DecidableEq, Inhabited

/-- The outputs of one `session.run` call: `outputs[0]` is the logits
tensor `[1, seqLen, vocab]` (batch dimension dropped, so a list of
per-position rows), and `outputs[1 + 2*i]`, `outputs[2 + 2*i]` are the
updated key/value caches of layer `i`. -/
structure StepOutput (α : Type u) where
  logits : List (List Int)
  past_key_values : List (α × α)
deriving Repr, DecidableEq, Inhabited

/-- `np.argmax` over one logits row: the index of the first occurrence of
the maximum (lowest index wins ties); `0` on the empty row. -/
def argmax : List Int → Nat
  | [] => 0
  | x :: xs => if xs.getD (argmax xs) x > x then argmax xs + 1 else 0

/-- `logits[0, -1, :]`: the logits row at the last position. -/
def lastLogits (logits : List (List Int)) : List Int :=
  (logits.getLast?).getD []

/-- The local variables mutated by the loop in `generate_text`. -/
structure GenState (α : Type u) where
  input_ids : List Nat
  attention_mask : List Nat
  position_ids : List Nat
  generated_ids : List Nat
  past_key_values : List (α × α)
deriving Repr, DecidableEq, Inhabited

/-- Bundle the loop state into the arguments of the `session.run` call. -/
def toForwardInput (s : GenState α) : ForwardInput α :=
  { input_ids := s.input_ids
    attention_mask := s.attention_mask
    position_ids := s.position_ids
    past_key_values := s.past_key_values }

/-- One iteration of the loop, recorded for analysis: the state at the top
of the iteration (whose fields are exactly what the collaborator is
called with), the greedily chosen token, and the state after the
iteration. -/
structure StepRecord (α : Type u) where
  pre : GenState α
  chosen : Nat
  post : GenState α
deriving Repr, DecidableEq, Inhabited

/-- `num_layers = 16` hardcoded by the source. -/
def num_layers : Nat := 16

/-- The loop-variable updates performed by one non-EOS iteration of
`generate_text`: append the chosen token to `generated_ids`, append `1`
to `attention_mask`, feed only the new token forward
(`input_ids = [[next_token_id]]`), set `position_ids` to the single index
`attention_mask.shape[1] - 1`, and keep the caches the collaborator
returned earlier in the iteration. -/
def nextState (s : GenState α) (next : Nat) (newPast : List (α × α)) : GenState α :=
  { input_ids := [next]
    attention_mask := s.attention_mask ++ [1]
    position_ids := [(s.attention_mask ++ [1]).length - 1]
    generated_ids := s.generated_ids ++ [next]
    past_key_values := newPast }

/-- The body of `for step in range(max_length - seq_length)` in
`generate_text`, with the iteration count as fuel.  Each iteration calls
the collaborator, replaces the caches with the returned ones, takes the
arg-max of the last-position logits, breaks (without appending) if it is
the EOS id, and otherwise appends the token to `generated_ids`, appends
`1` to `attention_mask`, feeds only the new token forward, and sets
`position_ids` to the single index `len(attention_mask) - 1`.  Alongside
the final state it returns the record of the iterations performed. -/
def decodeLoop (step : ForwardInput α → StepOutput α) (eosId : Nat) :
    Nat → GenState α → GenState α × List (StepRecord α)
  | 0, s => (s, [])
  | n + 1, s =>
    let out := step (toForwardInput s)
    let next := argmax (lastLogits out.logits)
    if next = eosId then
      let sF : GenState α := { s with past_key_values := out.past_key_values }
      (sF, [{ pre := s, chosen := next, post := sF }])
    else
      let s' := nextState s next out.past_key_values
      let r := decodeLoop step eosId n s'
      (r.1, { pre := s, chosen := next, post := s' } :: r.2)

/-- The state of `generate_text` just before the loop: `input_ids` and
`generated_ids` are the prompt ids, `attention_mask` is the tokenizer's
all-ones mask (`padding=False`), `position_ids = np.arange(seq_length)`,
and every layer's key and value cache is the zero-length tensor. -/
def initState (promptIds : List Nat) (zerosKV : α) : GenState α :=
  { input_ids := promptIds
    attention_mask := List.replicate promptIds.length 1
    position_ids := List.range promptIds.length
    generated_ids := promptIds
    past_key_values := List.replicate num_layers (zerosKV, zerosKV) }

/-- `range(max_length - seq_length)` iteration count: empty when
`max_length <= seq_length` (Python's empty range). -/
def numSteps (promptIds : List Nat) (maxLength : Int) : Nat :=
  (maxLength - (promptIds.length : Int)).toNat

/-- `generate_text(session, tokenizer, prompt, max_length)` in token-id
space: run the decode loop from the prompt and return the accumulated
`generated_ids` (the source then hands them to `tokenizer.decode`, the
external tokenizer collaborator). -/
def generate_text (step : ForwardInput α → StepOutput α) (eosId : Nat)
    (promptIds : List Nat) (maxLength : Int) (zerosKV : α) : List Nat :=
  (decodeLoop step eosId (numSteps promptIds maxLength)
    (initState promptIds zerosKV)).1.generated_ids

/-- The sequence of collaborator calls (with chosen tokens and post
states) a run of `generate_text` performs. -/
def callTrace (step : ForwardInput α → StepOutput α) (eosId : Nat)
    (promptIds : List Nat) (maxLength : Int) (zerosKV : α) : List (StepRecord α) :=
  (decodeLoop step eosId (numSteps promptIds maxLength)
    (initState promptIds zerosKV)).2

/-! ### Stub collaborators used for concrete runs -/

/-- A logits row whose arg-max is token `7`. -/
def row7 : List Int := [0, 0, 0, 0, 0, 0, 0, 1]

/-- A logits row whose arg-max is token `0` (used as the EOS id). -/
def rowEos : List Int := [1]

/-- Stub collaborator for the end-to-end scenario: its arg-max token is
`7` on the calls whose attention mask is shorter than 5 (the prefill of a
3-token prompt and the first decode call) and the EOS id `0` afterwards;
caches are echoed back unchanged. -/
def stubA : ForwardInput Nat → StepOutput Nat := fun inp =>
  { logits := [if inp.attention_mask.length < 5 then row7 else rowEos]
    past_key_values := inp.past_key_values }

/-- Stub collaborator that never emits EOS and returns per-layer caches of
pairwise different lengths (layer `i` reports key length `i + 1` and value
length `2 * i + 5`), modelling a collaborator that breaks the cache-shape
contract. -/
def stubB : ForwardInput Nat → StepOutput Nat := fun _ =>
  { logits := [row7]
    past_key_values := (List.range num_layers).map (fun i => (i + 1, 2 * i + 5)) }

/-! ### Mean pooling (embedding scripts) -/

/-- Elementwise sum of two vectors (`numpy` broadcasting never occurs here:
the two operands always have equal length in the source). -/
def vecAdd (a b : List ℚ) : List ℚ := List.zipWith (fun x y => x + y) a b

/-- `np.sum(m, axis=1)` for one batch entry: sum a list of equal-length
rows elementwise. -/
def sumRows : List (List ℚ) → List ℚ
  | [] => []
  | [r] => r
  | r :: rs => vecAdd r (sumRows rs)

/-- Elementwise product of two `[batch, seq, features]` tensors. -/
def mul3 (a b : List (List (List ℚ))) : List (List (List ℚ)) :=
  List.zipWith (fun x y => List.zipWith (fun u v => List.zipWith (fun p q => p * q) u v) x y) a b

/-- `np.clip(x, a_min=1e-9, a_max=None)` on one entry. -/
def clipMin (m : ℚ) (x : ℚ) : ℚ := max x m

/-- The `1e-9` lower clip bound, as an exact rational. -/
def a_min : ℚ := 1 / 10 ^ 9

/-- `np.broadcast_to(np.expand_dims(attention_mask, -1), token_embeddings.shape)`:
each mask entry is replicated across the feature dimension of the
corresponding embedding row. -/
def input_mask_expanded (model_output : List (List (List ℚ)))
    (attention_mask : List (List ℚ)) : List (List (List ℚ)) :=
  List.zipWith
    (fun maskRow embMat =>
      List.zipWith (fun m embRow => embRow.map (fun _ => m)) maskRow embMat)
    attention_mask model_output

/-- `sum_embeddings = np.sum(token_embeddings * input_mask_expanded, axis=1)`. -/
def sum_embeddings (model_output : List (List (List ℚ)))
    (attention_mask : List (List ℚ)) : List (List ℚ) :=
  (mul3 model_output (input_mask_expanded model_output attention_mask)).map sumRows

/-- `sum_mask = np.clip(np.sum(input_mask_expanded, axis=1), a_min=1e-9, a_max=None)`. -/
def sum_mask (model_output : List (List (List ℚ)))
    (attention_mask : List (List ℚ)) : List (List ℚ) :=
  ((input_mask_expanded model_output attention_mask).map sumRows).map
    (List.map (clipMin a_min))

/-- `mean_pooling(model_output, attention_mask)` from `py/main.py` and
`jina-embedding-v2/py/main.py`: masked sum over the sequence axis divided
by the clipped mask sum. -/
def mean_pooling (model_output : List (List (List ℚ)))
    (attention_mask : List (List ℚ)) : List (List ℚ) :=
  List.zipWith (fun se sm => List.zipWith (fun x y => x / y) se sm)
    (sum_embeddings model_output attention_mask)
    (sum_mask model_output attention_mask)

/-! ### Loop invariants and trace lemmas -/

/-- The attention mask is the all-ones mask of the current sequence: it
has the same length as `generated_ids` and every entry is `1`. -/
def maskInv (s : GenState α) : Prop :=
  s.attention_mask = List.replicate s.generated_ids.length 1

theorem maskInv_initState (promptIds : List Nat) (zerosKV : α) :
    maskInv (initState promptIds zerosKV) := rfl

theorem maskInv_nextState {s : GenState α} (h : maskInv s)
    (next : Nat) (newPast : List (α × α)) : maskInv (nextState s next newPast) := by
  simp only [maskInv, nextState] at h ⊢
  simp [h, List.replicate_succ']

theorem position_nextState {s : GenState α} (h : maskInv s)
    (next : Nat) (newPast : List (α × α)) :
    (nextState s next newPast).position_ids =
      [(nextState s next newPast).generated_ids.length - 1] := by
  simp [nextState, maskInv.eq_1] at h ⊢
  simp [h]

theorem trace_length_le (step : ForwardInput α → StepOutput α) (eosId : Nat) :
    ∀ (n : Nat) (s : GenState α), ((decodeLoop step eosId n s).2).length ≤ n
  | 0, _ => by simp [decodeLoop]
  | n + 1, s => by
    rw [decodeLoop]
    dsimp only
    split
    · simp
    · simpa using Nat.succ_le_succ (trace_length_le step eosId n _)

theorem trace_head_pre (step : ForwardInput α → StepOutput α) (eosId : Nat) :
    ∀ (n : Nat) (s : GenState α) (h : 0 < ((decodeLoop step eosId n s).2).length),
      (((decodeLoop step eosId n s).2)[0]).pre = s
  | 0, s, h => by simp [decodeLoop] at h
  | n + 1, s, h => by
    simp only [decodeLoop]
    split <;> rfl

theorem trace_maskInv (step : ForwardInput α → StepOutput α) (eosId : Nat) :
    ∀ (n : Nat) (s : GenState α), maskInv s →
      ∀ rec ∈ (decodeLoop step eosId n s).2, maskInv rec.pre ∧ maskInv rec.post
  | 0, s, _, rec, hrec => by simp [decodeLoop] at hrec
  | n + 1, s, hs, rec, hrec => by
    rw [decodeLoop] at hrec
    dsimp only at hrec
    split at hrec
    · simp only [List.mem_singleton] at hrec
      subst hrec
      exact ⟨hs, hs⟩
    · simp only [List.mem_cons] at hrec
      rcases hrec with rfl | hrec
      · exact ⟨hs, maskInv_nextState hs _ _⟩
      · exact trace_maskInv step eosId n _ (maskInv_nextState hs _ _) rec hrec

theorem trace_input_len (step : ForwardInput α → StepOutput α) (eosId : Nat) :
    ∀ (n : Nat) (s : GenState α) (i : Nat) (h : i < ((decodeLoop step eosId n s).2).length),
      (((decodeLoop step eosId n s).2)[i]).pre.input_ids.length =
        if i = 0 then s.input_ids.length else 1
  | 0, s, i, h => by simp [decodeLoop] at h
  | n + 1, s, i, h => by
    by_cases hc : argmax (lastLogits (step (toForwardInput s)).logits) = eosId
    · simp only [decodeLoop, if_pos hc] at h ⊢
      simp only [List.length_singleton, Nat.lt_one_iff] at h
      subst h
      simp
    · simp only [decodeLoop, if_neg hc] at h ⊢
      match i with
      | 0 => simp
      | i + 1 =>
        simp only [List.getElem_cons_succ]
        have hlt : i < ((decodeLoop step eosId n (nextState s (argmax (lastLogits
            (step (toForwardInput s)).logits)) (step (toForwardInput s)).past_key_values)).2).length := by
          simp only [List.length_cons] at h
          omega
        rw [trace_input_len step eosId n _ i hlt]
        simp [nextState]

theorem trace_position_ids (step : ForwardInput α → StepOutput α) (eosId : Nat) :
    ∀ (n : Nat) (s : GenState α), maskInv s →
      ∀ (i : Nat) (h : i < ((decodeLoop step eosId n s).2).length),
        (((decodeLoop step eosId n s).2)[i]).pre.position_ids =
          if i = 0 then s.position_ids
          else [(((decodeLoop step eosId n s).2)[i]).pre.generated_ids.length - 1]
  | 0, s, _, i, h => by simp [decodeLoop] at h
  | n + 1, s, hs, i, h => by
    by_cases hc : argmax (lastLogits (step (toForwardInput s)).logits) = eosId
    · simp only [decodeLoop, if_pos hc] at h ⊢
      simp only [List.length_singleton, Nat.lt_one_iff] at h
      subst h
      simp
    · simp only [decodeLoop, if_neg hc] at h ⊢
      match i with
      | 0 => simp
      | i + 1 =>
        simp only [List.getElem_cons_succ, Nat.succ_ne_zero, if_neg]
        have hlt : i < ((decodeLoop step eosId n (nextState s (argmax (lastLogits
            (step (toForwardInput s)).logits)) (step (toForwardInput s)).past_key_values)).2).length := by
          simp only [List.length_cons] at h
          omega
        rw [trace_position_ids step eosId n _ (maskInv_nextState hs _ _) i hlt]
        match i with
        | 0 =>
          simp only [if_pos rfl]
          rw [trace_head_pre step eosId n _ hlt]
          exact position_nextState hs _ _
        | i + 1 => simp

theorem trace_chosen (step : ForwardInput α → StepOutput α) (eosId : Nat) :
    ∀ (n : Nat) (s : GenState α), ∀ rec ∈ (decodeLoop step eosId n s).2,
      rec.chosen = argmax (lastLogits (step (toForwardInput rec.pre)).logits)
  | 0, s, rec, hrec => by simp [decodeLoop] at hrec
  | n + 1, s, rec, hrec => by
    by_cases hc : argmax (lastLogits (step (toForwardInput s)).logits) = eosId
    · simp only [decodeLoop, if_pos hc, List.mem_singleton] at hrec
      subst hrec
      rfl
    · simp only [decodeLoop, if_neg hc, List.mem_cons] at hrec
      rcases hrec with rfl | hrec
      · rfl
      · exact trace_chosen step eosId n _ rec hrec

theorem trace_past_propagation (step : ForwardInput α → StepOutput α) (eosId : Nat) :
    ∀ (n : Nat) (s : GenState α) (i : Nat)
      (h1 : i < ((decodeLoop step eosId n s).2).length)
      (h2 : i + 1 < ((decodeLoop step eosId n s).2).length),
      (((decodeLoop step eosId n s).2)[i + 1]).pre.past_key_values =
        (step (toForwardInput (((decodeLoop step eosId n s).2)[i]).pre)).past_key_values
  | 0, s, i, h1, h2 => by simp [decodeLoop] at h1
  | n + 1, s, i, h1, h2 => by
    by_cases hc : argmax (lastLogits (step (toForwardInput s)).logits) = eosId
    · simp only [decodeLoop, if_pos hc, List.length_singleton] at h2
      omega
    · simp only [decodeLoop, if_neg hc] at h1 h2 ⊢
      match i with
      | 0 =>
        simp only [List.getElem_cons_succ, List.getElem_cons_zero]
        have hlt : 0 < ((decodeLoop step eosId n (nextState s (argmax (lastLogits
            (step (toForwardInput s)).logits)) (step (toForwardInput s)).past_key_values)).2).length := by
          simp only [List.length_cons] at h2
          omega
        rw [trace_head_pre step eosId n _ hlt]
        rfl
      | i + 1 =>
        simp only [List.getElem_cons_succ]
        have hlt2 : i + 1 < ((decodeLoop step eosId n (nextState s (argmax (lastLogits
            (step (toForwardInput s)).logits)) (step (toForwardInput s)).past_key_values)).2).length := by
          simp only [List.length_cons] at h2
          omega
        exact trace_past_propagation step eosId n _ i (by omega) hlt2

theorem generated_ids_decomp (step : ForwardInput α → StepOutput α) (eosId : Nat) :
    ∀ (n : Nat) (s : GenState α), ∃ app : List Nat,
      (decodeLoop step eosId n s).1.generated_ids = s.generated_ids ++ app ∧
      ∀ t ∈ app, t ≠ eosId
  | 0, s => ⟨[], by simp [decodeLoop]⟩
  | n + 1, s => by
    by_cases hc : argmax (lastLogits (step (toForwardInput s)).logits) = eosId
    · exact ⟨[], by simp [decodeLoop, if_pos hc]⟩
    · obtain ⟨app, happ, hne⟩ := generated_ids_decomp step eosId n
        (nextState s (argmax (lastLogits (step (toForwardInput s)).logits))
          (step (toForwardInput s)).past_key_values)
      refine ⟨argmax (lastLogits (step (toForwardInput s)).logits) :: app, ?_, ?_⟩
      · simp only [decodeLoop, if_neg hc]
        rw [happ]
        simp [nextState]
      · intro t ht
        rcases List.mem_cons.1 ht with rfl | ht
        · exact hc
        · exact hne t ht

theorem generate_text_zero_steps (step : ForwardInput α → StepOutput α) (eosId : Nat)
    (promptIds : List Nat) (maxLength : Int) (zerosKV : α)
    (h : maxLength ≤ (promptIds.length : Int)) :
    generate_text step eosId promptIds maxLength zerosKV = promptIds ∧
    callTrace step eosId promptIds maxLength zerosKV = [] := by
  have hz : numSteps promptIds maxLength = 0 := by
    simp only [numSteps, Int.toNat_eq_zero]
    omega
  constructor
  · simp [generate_text, hz, decodeLoop, initState]
  · simp [callTrace, hz, decodeLoop]

theorem generate_text_eos_first (step : ForwardInput α → StepOutput α) (eosId : Nat)
    (promptIds : List Nat) (maxLength : Int) (zerosKV : α)
    (h : argmax (lastLogits (step (toForwardInput (initState promptIds zerosKV))).logits)
      = eosId) :
    generate_text step eosId promptIds maxLength zerosKV = promptIds := by
  unfold generate_text
  rcases hn : numSteps promptIds maxLength with _ | n
  · simp [decodeLoop, initState]
  · simp only [decodeLoop, if_pos h]
    simp [initState]

/-! ### Arg-max characterization -/

theorem getD_of_lt (l : List Int) (d : Int) (n : Nat) (h : n < l.length) :
    l.getD n d = l[n] := by
  simp [List.getD_eq_getElem?_getD, List.getElem?_eq_getElem h]

theorem argmax_lt_length : ∀ (l : List Int), l ≠ [] → argmax l < l.length
  | [], h => absurd rfl h
  | x :: xs, _ => by
    rw [argmax]
    split
    · rename_i hgt
      have hxs : xs ≠ [] := by
        intro he
        subst he
        simp at hgt
      have := argmax_lt_length xs hxs
      simpa using Nat.succ_lt_succ this
    · simp

theorem argmax_is_max : ∀ (l : List Int) (j : Nat), j < l.length →
    l.getD j 0 ≤ l.getD (argmax l) 0
  | [], j, h => by simp at h
  | x :: xs, j, h => by
    rw [argmax]
    split
    · rename_i hgt
      have hxs : xs ≠ [] := by
        intro he
        subst he
        simp at hgt
      have hA : argmax xs < xs.length := argmax_lt_length xs hxs
      have hgt' : x < xs.getD (argmax xs) 0 := by
        rwa [getD_of_lt xs x _ hA, ← getD_of_lt xs 0 _ hA] at hgt
      match j with
      | 0 => simpa using le_of_lt hgt'
      | j + 1 =>
        simp only [List.getD_cons_succ]
        exact argmax_is_max xs j (by simpa using Nat.lt_of_succ_lt_succ h)
    · rename_i hle
      push_neg at hle
      match j with
      | 0 => simp
      | j + 1 =>
        simp only [List.getD_cons_succ, List.getD_cons_zero]
        have hj : j < xs.length := by simpa using Nat.lt_of_succ_lt_succ h
        have hxs : xs ≠ [] := by
          intro he
          subst he
          simp at hj
        have hA : argmax xs < xs.length := argmax_lt_length xs hxs
        calc xs.getD j 0 ≤ xs.getD (argmax xs) 0 := argmax_is_max xs j hj
          _ = xs.getD (argmax xs) x := by
            rw [getD_of_lt xs 0 _ hA, getD_of_lt xs x _ hA]
          _ ≤ x := hle

theorem argmax_first_max : ∀ (l : List Int) (j : Nat), j < argmax l →
    l.getD j 0 < l.getD (argmax l) 0
  | [], j, h => by simp [argmax] at h
  | x :: xs, j, h => by
    rw [argmax] at h ⊢
    split at h
    · rename_i hgt
      have hxs : xs ≠ [] := by
        intro he
        subst he
        simp at hgt
      have hA : argmax xs < xs.length := argmax_lt_length xs hxs
      have hgt' : x < xs.getD (argmax xs) 0 := by
        rwa [getD_of_lt xs x _ hA, ← getD_of_lt xs 0 _ hA] at hgt
      rw [if_pos (by rwa [getD_of_lt xs x _ hA, ← getD_of_lt xs 0 _ hA])]
      match j with
      | 0 => simpa using hgt'
      | j + 1 =>
        simp only [List.getD_cons_succ]
        exact argmax_first_max xs j (Nat.lt_of_succ_lt_succ h)
    · omega

/-! ### Mean-pooling lemmas -/

theorem mem_zipWith {γ δ ε : Type} {f : γ → δ → ε} :
    ∀ {a : List γ} {b : List δ} {c : ε}, c ∈ List.zipWith f a b →
      ∃ x ∈ a, ∃ y ∈ b, c = f x y
  | [], _, c, h => by simp at h
  | _ :: _, [], c, h => by simp at h
  | x :: a, y :: b, c, h => by
    rcases List.mem_cons.1 (by simpa using h) with rfl | h
    · exact ⟨x, List.mem_cons_self x a, y, List.mem_cons_self y b, rfl⟩
    · obtain ⟨u, hu, v, hv, rfl⟩ := mem_zipWith h
      exact ⟨u, List.mem_cons_of_mem x hu, v, List.mem_cons_of_mem y hv, rfl⟩

theorem input_mask_expanded_zero (mo : List (List (List ℚ))) (mask : List (List ℚ))
    (h : ∀ row ∈ mask, ∀ m ∈ row, m = 0) :
    ∀ mat ∈ input_mask_expanded mo mask, ∀ row ∈ mat, ∀ x ∈ row, x = 0 := by
  intro mat hmat row hrow x hx
  obtain ⟨maskRow, hmr, embMat, _, rfl⟩ := mem_zipWith hmat
  obtain ⟨m, hm, embRow, _, rfl⟩ := mem_zipWith hrow
  obtain ⟨_, _, rfl⟩ := List.mem_map.1 hx
  exact h maskRow hmr m hm

theorem mul3_zero_right (a b : List (List (List ℚ)))
    (hb : ∀ mat ∈ b, ∀ row ∈ mat, ∀ x ∈ row, x = 0) :
    ∀ mat ∈ mul3 a b, ∀ row ∈ mat, ∀ x ∈ row, x = 0 := by
  intro mat hmat row hrow x hx
  obtain ⟨am, ham, bm, hbm, rfl⟩ := mem_zipWith hmat
  obtain ⟨ar, har, br, hbr, rfl⟩ := mem_zipWith hrow
  obtain ⟨p, hp, q, hq, rfl⟩ := mem_zipWith hx
  rw [hb bm hbm br hbr q hq, mul_zero]

theorem sumRows_zero : ∀ (rows : List (List ℚ)), (∀ r ∈ rows, ∀ x ∈ r, x = 0) →
    ∀ x ∈ sumRows rows, x = 0
  | [], _, x, hx => by simp [sumRows] at hx
  | [r], h, x, hx => h r (List.mem_singleton.2 rfl) x (by simpa [sumRows] using hx)
  | r :: r' :: rs, h, x, hx => by
    rw [show sumRows (r :: r' :: rs) = vecAdd r (sumRows (r' :: rs)) from rfl] at hx
    obtain ⟨u, hu, v, hv, rfl⟩ := mem_zipWith hx
    rw [h r (List.mem_cons_self r _) u hu,
      sumRows_zero (r' :: rs) (fun q hq => h q (List.mem_cons_of_mem r hq)) v hv, add_zero]

theorem sum_embeddings_zero (mo : List (List (List ℚ))) (mask : List (List ℚ))
    (h : ∀ row ∈ mask, ∀ m ∈ row, m = 0) :
    ∀ row ∈ sum_embeddings mo mask, ∀ x ∈ row, x = 0 := by
  intro row hrow x hx
  obtain ⟨mat, hmat, rfl⟩ := List.mem_map.1 hrow
  exact sumRows_zero mat
    (mul3_zero_right mo (input_mask_expanded mo mask) (input_mask_expanded_zero mo mask h)
      mat hmat) x hx

theorem sum_mask_ge_a_min (mo : List (List (List ℚ))) (mask : List (List ℚ)) :
    ∀ row ∈ sum_mask mo mask, ∀ x ∈ row, a_min ≤ x := by
  intro row hrow x hx
  obtain ⟨r, _, rfl⟩ := List.mem_map.1 hrow
  obtain ⟨y, _, rfl⟩ := List.mem_map.1 hx
  exact le_max_right y a_min

/-- Stub collaborator whose arg-max token is the EOS id `0` on every call;
caches are echoed back unchanged. -/
def stubC : ForwardInput Nat → StepOutput Nat := fun inp =>
  { logits := [rowEos]
    past_key_values := inp.past_key_values }

/-! ### Claims -/

/-- C1: for prompt ids `[5, 9, 2]`, `maxLength = 6`, and a collaborator
whose arg-max token on successive decode selections is `7`, then `7`,
then the EOS id, `generate_text` returns exactly `[5, 9, 2, 7, 7]`: the
EOS token is suppressed and the loop stops after 5 tokens (3 collaborator
calls) even though the budget allowed 6. -/
theorem C1_end_to_end_scenario :
    generate_text stubA 0 [5, 9, 2] 6 0 = [5, 9, 2, 7, 7] ∧
    (callTrace stubA 0 [5, 9, 2] 6 0).length = 3 := by decide

/-- C2: in every run of `generate_text`, the first collaborator call
receives `input_ids` of the prompt's length (the prefill) and every
subsequent call receives `input_ids` of length exactly 1. -/
theorem C2_single_token_decode (step : ForwardInput α → StepOutput α) (eosId : Nat)
    (promptIds : List Nat) (maxLength : Int) (zerosKV : α) (i : Nat)
    (h : i < (callTrace step eosId promptIds maxLength zerosKV).length) :
    ((callTrace step eosId promptIds maxLength zerosKV)[i]).pre.input_ids.length =
      if i = 0 then promptIds.length else 1 :=
  trace_input_len step eosId (numSteps promptIds maxLength) (initState promptIds zerosKV) i h

/-- C2 witness: in the concrete `stubA` run the second collaborator call
feeds exactly one token. -/
theorem C2_single_token_decode_witness :
    ∃ h : 1 < (callTrace stubA 0 [5, 9, 2] 6 0).length,
      ((callTrace stubA 0 [5, 9, 2] 6 0)[1]).pre.input_ids.length = 1 := by
  refine ⟨by decide, ?_⟩
  simpa using C2_single_token_decode stubA 0 [5, 9, 2] 6 0 1 (by decide)

/-- C3: in every run of `generate_text`, after every step (and already at
the top of every step) the attention mask has the same length as
`generated_ids` and every one of its entries — in particular every
appended one — is `1`. -/
theorem C3_mask_matches_generated (step : ForwardInput α → StepOutput α) (eosId : Nat)
    (promptIds : List Nat) (maxLength : Int) (zerosKV : α) (rec : StepRecord α)
    (hrec : rec ∈ callTrace step eosId promptIds maxLength zerosKV) :
    (rec.post.attention_mask.length = rec.post.generated_ids.length ∧
      ∀ x ∈ rec.post.attention_mask, x = 1) ∧
    (rec.pre.attention_mask.length = rec.pre.generated_ids.length ∧
      ∀ x ∈ rec.pre.attention_mask, x = 1) := by
  have h := trace_maskInv step eosId (numSteps promptIds maxLength)
    (initState promptIds zerosKV) (maskInv_initState promptIds zerosKV) rec hrec
  refine ⟨⟨?_, ?_⟩, ?_, ?_⟩
  · rw [h.2]
    simp
  · intro x hx
    rw [h.2] at hx
    exact List.eq_of_mem_replicate hx
  · rw [h.1]
    simp
  · intro x hx
    rw [h.1] at hx
    exact List.eq_of_mem_replicate hx

/-- C3 witness: the invariant at the first recorded step of the concrete
`stubA` run. -/
theorem C3_mask_matches_generated_witness :
    ((callTrace stubA 0 [5, 9, 2] 6 0).getD 0 default).post.attention_mask.length =
      ((callTrace stubA 0 [5, 9, 2] 6 0).getD 0 default).post.generated_ids.length ∧
    ∀ x ∈ ((callTrace stubA 0 [5, 9, 2] 6 0).getD 0 default).post.attention_mask, x = 1 :=
  (C3_mask_matches_generated stubA 0 [5, 9, 2] 6 0
    ((callTrace stubA 0 [5, 9, 2] 6 0).getD 0 default) (by decide)).1

/-- C4: in every run of `generate_text`, no appended token (no token of
the output beyond the prompt) equals the EOS id — a selected EOS breaks
the loop without being appended — and if the very first selection after
prefill is the EOS id the result is the unmodified prompt. -/
theorem C4_eos_suppressed (step : ForwardInput α → StepOutput α) (eosId : Nat)
    (promptIds : List Nat) (maxLength : Int) (zerosKV : α) :
    (∀ t ∈ (generate_text step eosId promptIds maxLength zerosKV).drop promptIds.length,
      t ≠ eosId) ∧
    (argmax (lastLogits (step (toForwardInput (initState promptIds zerosKV))).logits) = eosId →
      generate_text step eosId promptIds maxLength zerosKV = promptIds) := by
  constructor
  · intro t ht
    obtain ⟨app, happ, hne⟩ := generated_ids_decomp step eosId
      (numSteps promptIds maxLength) (initState promptIds zerosKV)
    have hg : generate_text step eosId promptIds maxLength zerosKV = promptIds ++ app := happ
    rw [hg, List.drop_left] at ht
    exact hne t ht
  · exact generate_text_eos_first step eosId promptIds maxLength zerosKV

/-- C4 witness: a collaborator that emits EOS on the first selection
yields the unmodified prompt, and the appended token `7` of the `stubA`
run differs from the EOS id. -/
theorem C4_eos_suppressed_witness :
    generate_text stubC 0 [5] 11 0 = [5] ∧ (7 : Nat) ≠ 0 :=
  ⟨(C4_eos_suppressed stubC 0 [5] 11 0).2 (by decide),
    (C4_eos_suppressed stubA 0 [5, 9, 2] 6 0).1 7 (by decide)⟩

/-- C5: at every step the token recorded as chosen is the arg-max of the
logits row at the last position only, and `argmax` is a strict arg-max
with deterministic lowest-index tie-breaking: the winning index is in
range, no entry exceeds the entry at the winning index, and every entry
strictly before the winning index is strictly smaller. -/
theorem C5_greedy_argmax (step : ForwardInput α → StepOutput α) (eosId : Nat)
    (promptIds : List Nat) (maxLength : Int) (zerosKV : α) :
    (∀ rec ∈ callTrace step eosId promptIds maxLength zerosKV,
      rec.chosen = argmax (lastLogits (step (toForwardInput rec.pre)).logits)) ∧
    ∀ l : List Int, l ≠ [] →
      argmax l < l.length ∧
      (∀ j < l.length, l.getD j 0 ≤ l.getD (argmax l) 0) ∧
      ∀ j < argmax l, l.getD j 0 < l.getD (argmax l) 0 := by
  refine ⟨?_, ?_⟩
  · exact trace_chosen step eosId (numSteps promptIds maxLength) (initState promptIds zerosKV)
  · intro l hl
    exact ⟨argmax_lt_length l hl, fun j hj => argmax_is_max l j hj,
      fun j hj => argmax_first_max l j hj⟩

/-- C5 witness: the first chosen token of the concrete `stubA` run is the
arg-max of that call's last-position logits, and on the row
`[3, 7, 7, 2]` the arg-max picks the lower of the two tied maximal
indices. -/
theorem C5_greedy_argmax_witness :
    ((callTrace stubA 0 [5, 9, 2] 6 0).getD 0 default).chosen =
      argmax (lastLogits (stubA (toForwardInput
        ((callTrace stubA 0 [5, 9, 2] 6 0).getD 0 default).pre)).logits) ∧
    argmax [3, 7, 7, 2] < 4 ∧
    List.getD [(3 : Int), 7, 7, 2] 2 0 ≤ List.getD [(3 : Int), 7, 7, 2] (argmax [3, 7, 7, 2]) 0 ∧
    List.getD [(3 : Int), 7, 7, 2] 0 0 < List.getD [(3 : Int), 7, 7, 2] (argmax [3, 7, 7, 2]) 0 := by
  have h1 := (C5_greedy_argmax stubA 0 [5, 9, 2] 6 0).1
    ((callTrace stubA 0 [5, 9, 2] 6 0).getD 0 default) (by decide)
  have h2 := (C5_greedy_argmax stubA 0 [5, 9, 2] 6 0).2 [3, 7, 7, 2] (by decide)
  exact ⟨h1, h2.1, h2.2.1 2 (by decide), h2.2.2 0 (by decide)⟩

/-- C6: in every run of `generate_text`, the prefill call receives
`position_ids = 0 .. len(promptIds) - 1` and every subsequent call
receives the single position id `len(generated_ids) - 1` together with
the full grown all-ones attention mask of the current sequence. -/
theorem C6_position_ids (step : ForwardInput α → StepOutput α) (eosId : Nat)
    (promptIds : List Nat) (maxLength : Int) (zerosKV : α) (i : Nat)
    (h : i < (callTrace step eosId promptIds maxLength zerosKV).length) :
    ((callTrace step eosId promptIds maxLength zerosKV)[i]).pre.position_ids =
      (if i = 0 then List.range promptIds.length
       else [((callTrace step eosId promptIds maxLength zerosKV)[i]).pre.generated_ids.length - 1]) ∧
    ((callTrace step eosId promptIds maxLength zerosKV)[i]).pre.attention_mask =
      List.replicate
        ((callTrace step eosId promptIds maxLength zerosKV)[i]).pre.generated_ids.length 1 := by
  constructor
  · exact trace_position_ids step eosId (numSteps promptIds maxLength)
      (initState promptIds zerosKV) (maskInv_initState promptIds zerosKV) i h
  · exact (trace_maskInv step eosId (numSteps promptIds maxLength)
      (initState promptIds zerosKV) (maskInv_initState promptIds zerosKV)
      _ (List.getElem_mem h)).1

/-- C6 witness: in the concrete `stubA` run the second collaborator call
carries the single position id `len(generated_ids) - 1`. -/
theorem C6_position_ids_witness :
    ∃ h : 1 < (callTrace stubA 0 [5, 9, 2] 6 0).length,
      ((callTrace stubA 0 [5, 9, 2] 6 0)[1]).pre.position_ids =
        [((callTrace stubA 0 [5, 9, 2] 6 0)[1]).pre.generated_ids.length - 1] := by
  refine ⟨by decide, ?_⟩
  simpa using (C6_position_ids stubA 0 [5, 9, 2] 6 0 1 (by decide)).1

/-- C7: when `maxLength <= len(promptIds)` `generate_text` returns the
prompt unchanged with zero collaborator calls (not even a prefill), and
in every run the total number of collaborator calls is at most
`maxLength - len(promptIds)` (truncated at zero), so the loop
terminates. -/
theorem C7_length_budget (step : ForwardInput α → StepOutput α) (eosId : Nat)
    (promptIds : List Nat) (maxLength : Int) (zerosKV : α) :
    ((maxLength ≤ (promptIds.length : Int)) →
      generate_text step eosId promptIds maxLength zerosKV = promptIds ∧
      callTrace step eosId promptIds maxLength zerosKV = []) ∧
    (callTrace step eosId promptIds maxLength zerosKV).length ≤
      (maxLength - (promptIds.length : Int)).toNat := by
  constructor
  · exact fun h => generate_text_zero_steps step eosId promptIds maxLength zerosKV h
  · exact trace_length_le step eosId (numSteps promptIds maxLength)
      (initState promptIds zerosKV)

/-- C7 witness: a 3-token prompt with budget 2 is returned unchanged and
the collaborator is never called. -/
theorem C7_length_budget_witness :
    generate_text stubA 0 [5, 9, 2] 2 0 = [5, 9, 2] ∧
    callTrace stubA 0 [5, 9, 2] 2 0 = [] :=
  (C7_length_budget stubA 0 [5, 9, 2] 2 0).1 (by decide)

/-- C8 counterexample: the code performs no `InvalidArgument` validation.
With `maxLength = 0` (which is `<= 0`) `generate_text` does not fail: it
returns the prompt unchanged having made zero collaborator calls; and
with an empty prompt and budget 2 it does not fail before any
collaborator call either — it makes 2 collaborator calls. -/
theorem C8_counterexample :
    generate_text stubA 0 [5] 0 0 = [5] ∧
    callTrace stubA 0 [5] 0 0 = [] ∧
    (callTrace stubA 0 ([] : List Nat) 2 0).length = 2 := by decide

/-- C8 (amended): `generate_text` performs no argument validation and
cannot fail: whenever `maxLength <= 0` it simply returns the prompt
unchanged with zero collaborator calls (the loop range is empty), and an
empty prompt is not rejected. -/
theorem C8_no_invalid_argument_check (step : ForwardInput α → StepOutput α) (eosId : Nat)
    (promptIds : List Nat) (maxLength : Int) (zerosKV : α) (h : maxLength ≤ 0) :
    generate_text step eosId promptIds maxLength zerosKV = promptIds ∧
    callTrace step eosId promptIds maxLength zerosKV = [] :=
  generate_text_zero_steps step eosId promptIds maxLength zerosKV
    (le_trans h (Int.ofNat_nonneg promptIds.length))

/-- C8 witness: a negative budget also returns the prompt unchanged with
zero collaborator calls. -/
theorem C8_no_invalid_argument_check_witness :
    generate_text stubA 0 [5] (-3) 0 = [5] ∧
    callTrace stubA 0 [5] (-3) 0 = [] :=
  C8_no_invalid_argument_check stubA 0 [5] (-3) 0 (by decide)

/-- C9 counterexample: the code has no cache-consistency check.  `stubB`
returns per-layer caches of pairwise different lengths (layer `i` reports
key length `i + 1` and value length `2 * i + 5`); the second collaborator
call is fed exactly those inconsistent caches, and the run completes
normally with output `[5, 7, 7]` instead of aborting with a
`CacheInconsistency` error. -/
theorem C9_counterexample :
    ((callTrace stubB 0 [5] 3 0).map (fun rec => rec.pre.past_key_values)) =
      [List.replicate num_layers (0, 0),
        (List.range num_layers).map (fun i => (i + 1, 2 * i + 5))] ∧
    generate_text stubB 0 [5] 3 0 = [5, 7, 7] := by decide

/-- C9 (amended): the engine never inspects or validates the returned
cache shapes: the caches fed to call `i + 1` are verbatim whatever the
collaborator returned from call `i`, and generation continues regardless
of any cross-layer inconsistency. -/
theorem C9_no_cache_consistency_check (step : ForwardInput α → StepOutput α) (eosId : Nat)
    (promptIds : List Nat) (maxLength : Int) (zerosKV : α) (i : Nat)
    (h1 : i < (callTrace step eosId promptIds maxLength zerosKV).length)
    (h2 : i + 1 < (callTrace step eosId promptIds maxLength zerosKV).length) :
    ((callTrace step eosId promptIds maxLength zerosKV)[i + 1]).pre.past_key_values =
      (step (toForwardInput
        ((callTrace step eosId promptIds maxLength zerosKV)[i]).pre)).past_key_values :=
  trace_past_propagation step eosId (numSteps promptIds maxLength)
    (initState promptIds zerosKV) i h1 h2

/-- C9 witness: in the `stubB` run the second call's caches are exactly
the (inconsistent) caches the first call returned. -/
theorem C9_no_cache_consistency_check_witness :
    ∃ (h1 : 0 < (callTrace stubB 0 [5] 3 0).length)
      (h2 : 1 < (callTrace stubB 0 [5] 3 0).length),
      ((callTrace stubB 0 [5] 3 0)[1]).pre.past_key_values =
        (stubB (toForwardInput ((callTrace stubB 0 [5] 3 0)[0]).pre)).past_key_values := by
  refine ⟨by decide, by decide, ?_⟩
  exact C9_no_cache_consistency_check stubB 0 [5] 3 0 0 (by decide) (by decide)

/-- C10: `mean_pooling` is total: every entry of the divisor `sum_mask`
is clipped to at least `1e-9` (hence nonzero) before the division, and an
all-zero attention mask yields the defined all-zero result (zero
numerator over the clipped divisor) rather than a division-by-zero
error. -/
theorem C10_mean_pooling_total (mo : List (List (List ℚ))) (mask : List (List ℚ)) :
    (∀ row ∈ sum_mask mo mask, ∀ x ∈ row, a_min ≤ x ∧ x ≠ 0) ∧
    ((∀ row ∈ mask, ∀ m ∈ row, m = 0) →
      ∀ row ∈ mean_pooling mo mask, ∀ x ∈ row, x = 0) := by
  constructor
  · intro row hrow x hx
    have hge := sum_mask_ge_a_min mo mask row hrow x hx
    have hpos : (0 : ℚ) < a_min := by norm_num [a_min]
    exact ⟨hge, ne_of_gt (lt_of_lt_of_le hpos hge)⟩
  · intro hmask row hrow x hx
    obtain ⟨se, hse, sm, _, rfl⟩ := mem_zipWith hrow
    obtain ⟨p, hp, q, _, rfl⟩ := mem_zipWith hx
    rw [sum_embeddings_zero mo mask hmask se hse p hp, zero_div]

/-- C10 witness: for the concrete batch `[[[2, 4]]]` with the all-zero
mask `[[0]]` the divisor entry is at least `1e-9` and the pooled entry is
`0`. -/
theorem C10_mean_pooling_total_witness :
    a_min ≤ ((sum_mask [[[2, 4]]] [[0]]).getD 0 []).getD 0 0 ∧
    ((mean_pooling [[[2, 4]]] [[0]]).getD 0 []).getD 0 0 = 0 := by
  have h := C10_mean_pooling_total [[[2, 4]]] [[0]]
  have hexp : input_mask_expanded [[[2, 4]]] [[0]] = [[[0, 0]]] := by
    simp [input_mask_expanded]
  have hsm : sum_mask [[[2, 4]]] [[0]] = [[clipMin a_min 0, clipMin a_min 0]] := by
    simp [sum_mask, hexp, sumRows]
  have hse : sum_embeddings [[[2, 4]]] [[0]] = [[0, 0]] := by
    simp [sum_embeddings, hexp, mul3, sumRows]
  have hmp : mean_pooling [[[2, 4]]] [[0]] = [[0, 0]] := by
    simp [mean_pooling, hse, hsm, zero_div]
  constructor
  · exact (h.1 ((sum_mask [[[2, 4]]] [[0]]).getD 0 []) (by rw [hsm]; simp)
      (((sum_mask [[[2, 4]]] [[0]]).getD 0 []).getD 0 0) (by rw [hsm]; simp)).1
  · exact h.2 (by simp) ((mean_pooling [[[2, 4]]] [[0]]).getD 0 [])
      (by rw [hmp]; simp)
      (((mean_pooling [[[2, 4]]] [[0]]).getD 0 []).getD 0 0) (by rw [hmp]; simp)
